import Mathlib

/-!
Verification of the field-geometry, selection and import/export model of the
PDF-Field-Mapper application (src/src/App.tsx, second revision — the one with
multi-selection, lasso, drag snapping and Y-sync).

Coordinates are modelled as rationals (`ℚ`); page numbers as naturals; the
JavaScript value universe reachable by the JSON import code is modelled by a
small `JsonValue` type that includes `undef` for JavaScript's `undefined`
(the result of reading an absent object property).
-/

namespace PDFFieldMapper

/-- A committed field of the field store (interface `Field`, App.tsx lines
585-593): `id`, 1-based `page`, percentage coordinates `x, y, width, height`
(0-100, top-left origin), and a display `variableName`. -/
structure Field where
  id : String
  page : ℕ
  x : ℚ
  y : ℚ
  width : ℚ
  height : ℚ
  variableName : String
deriving DecidableEq

/-- Page dimensions in PDF points at reference scale 1.0
(`pageDimensions[i] = {width, height}`, App.tsx lines 952-959). -/
structure Dims where
  width : ℚ
  height : ℚ
deriving DecidableEq

/-- `Number(v.toFixed(2))`: rounding to 2 decimal places as used by
`handleExport` (App.tsx lines 1031-1042).  Ties follow Mathlib's `round`
(half up); the source's rounding agrees with it on all non-tie inputs and on
all nonnegative inputs. -/
def round2 (q : ℚ) : ℚ := (round (q * 100) : ℚ) / 100

/-- The JSON/JavaScript values the import code can encounter.  `undef` stands
for JavaScript `undefined`, produced by reading a property that an object does
not carry. -/
inductive JsonValue where
  | undef : JsonValue
  | null : JsonValue
  | bool : Bool → JsonValue
  | num : ℚ → JsonValue
  | str : String → JsonValue
  | arr : List JsonValue → JsonValue
  | obj : List (String × JsonValue) → JsonValue

/-- JavaScript property read `v[key]`: the value stored under `key` when `v`
is an object carrying it, `undefined` otherwise.  (Reading a property of
`null` actually throws in JavaScript; no property is ever read off `null` in
the modelled code paths, so `undef` is returned there as well.) -/
def objGet (v : JsonValue) (key : String) : JsonValue :=
  match v with
  | JsonValue.obj fs =>
    match fs.find? (fun p => p.fst == key) with
    | some p => p.snd
    | none => JsonValue.undef
  | _ => JsonValue.undef

/-- JavaScript truthiness of a `JsonValue`. -/
def truthy (v : JsonValue) : Bool :=
  match v with
  | JsonValue.undef => false
  | JsonValue.null => false
  | JsonValue.bool b => b
  | JsonValue.num q => q != 0
  | JsonValue.str s => s != ""
  | JsonValue.arr _ => true
  | JsonValue.obj _ => true

/-- JavaScript `a || b`. -/
def jsOr (a b : JsonValue) : JsonValue := if truthy a then a else b

/-- The record built for one imported array element
(`handleJsonUpload`'s `map`, App.tsx lines 981-1003).  Every component is a
raw JavaScript value: the import code copies property values verbatim, so a
component can be `undef` when its source property is absent. -/
structure JField where
  id : JsonValue
  page : JsonValue
  x : JsonValue
  y : JsonValue
  width : JsonValue
  height : JsonValue
  variableName : JsonValue

/-- Import of one array element (App.tsx lines 981-1003).  `gid` models the
string returned by the `generateId()` call guarding a missing `id`; `gname`
models the whole generated fallback name (the source builds it as the literal
prefix plus a fresh random id, line 996). -/
def importField (gid gname : String) (item : JsonValue) : JField :=
  if truthy (objGet item "percentageCoordinates") then
    { id := jsOr (objGet item "id") (JsonValue.str gid)
      page := objGet item "page"
      variableName := objGet item "variableName"
      x := objGet (objGet item "percentageCoordinates") "x"
      y := objGet (objGet item "percentageCoordinates") "y"
      width := objGet (objGet item "percentageCoordinates") "width"
      height := objGet (objGet item "percentageCoordinates") "height" }
  else
    { id := jsOr (objGet item "id") (JsonValue.str gid)
      page := jsOr (objGet item "page") (JsonValue.num 1)
      variableName := jsOr (objGet item "variableName") (JsonValue.str gname)
      x := jsOr (objGet item "x") (JsonValue.num 0)
      y := jsOr (objGet item "y") (JsonValue.num 0)
      width := jsOr (objGet item "width") (JsonValue.num 10)
      height := jsOr (objGet item "height") (JsonValue.num 5) }

/-- `jsonData.map(...)` with a position-indexed supply of generated ids and
generated fallback names (each `generateId()` call is fresh; the supplies
model that nondeterminism). -/
def importFieldsFrom (gid gname : ℕ → String) (i : ℕ) : List JsonValue → List JField
  | [] => []
  | item :: rest =>
    importField (gid i) (gname i) item :: importFieldsFrom gid gname (i + 1) rest

/-- The full element-wise import of a JSON array (App.tsx lines 981-1003). -/
def importFields (gid gname : ℕ → String) (items : List JsonValue) : List JField :=
  importFieldsFrom gid gname 0 items

/-- `handleJsonUpload` after the file has been read (App.tsx lines 973-1010):
`parsed = none` models `JSON.parse` throwing; a parsed non-array value throws
the explicit array-check error.  Both land in the `catch` block, which shows
the malformed-input alert and leaves the field collection untouched.  The
returned flag records whether that error alert was shown. -/
def handleJsonUpload (parsed : Option JsonValue) (gid gname : ℕ → String)
    (fields : List JField) : List JField × Bool :=
  match parsed with
  | none => (fields, true)
  | some (JsonValue.arr items) => (importFields gid gname items, false)
  | some _ => (fields, true)

/-- The export object built for a field whose page has no recorded dimensions
(`if (!dim) return field;`, App.tsx line 1020): the field itself, serialized
with its interface key order. -/
def exportBare (f : Field) : JsonValue :=
  JsonValue.obj
    [ ("id", JsonValue.str f.id)
    , ("page", JsonValue.num f.page)
    , ("x", JsonValue.num f.x)
    , ("y", JsonValue.num f.y)
    , ("width", JsonValue.num f.width)
    , ("height", JsonValue.num f.height)
    , ("variableName", JsonValue.str f.variableName) ]

/-- The export object built for a field with known page dimensions
(App.tsx lines 1022-1043): `id`, `variableName`, `page`, a PDF-point block
(bottom-left origin) and a percentage block, all coordinates rounded to
2 decimals. -/
def exportRich (f : Field) (dim : Dims) : JsonValue :=
  JsonValue.obj
    [ ("id", JsonValue.str f.id)
    , ("variableName", JsonValue.str f.variableName)
    , ("page", JsonValue.num f.page)
    , ("pdfCoordinates", JsonValue.obj
        [ ("x", JsonValue.num (round2 (f.x / 100 * dim.width)))
        , ("y", JsonValue.num (round2 (dim.height - (f.y + f.height) / 100 * dim.height)))
        , ("width", JsonValue.num (round2 (f.width / 100 * dim.width)))
        , ("height", JsonValue.num (round2 (f.height / 100 * dim.height))) ])
    , ("percentageCoordinates", JsonValue.obj
        [ ("x", JsonValue.num (round2 f.x))
        , ("y", JsonValue.num (round2 f.y))
        , ("width", JsonValue.num (round2 f.width))
        , ("height", JsonValue.num (round2 f.height)) ]) ]

/-- One element of `handleExport`'s `exportData` (App.tsx lines 1018-1044). -/
def exportField (dims : ℕ → Option Dims) (f : Field) : JsonValue :=
  match dims f.page with
  | none => exportBare f
  | some dim => exportRich f dim

/-- `a || generated` keeps a truthy string. -/
theorem jsOr_str_of_ne (s : String) (v : JsonValue) (h : s ≠ "") :
    jsOr (JsonValue.str s) v = JsonValue.str s := by
  simp [jsOr, truthy, bne_iff_ne, h]

/-- Importing the rich export object of a field with a non-empty id recovers
the field's id, page and variableName verbatim and its coordinates rounded to
2 decimals. -/
theorem importField_exportRich (g n : String) (f : Field) (d : Dims) (hid : f.id ≠ "") :
    importField g n (exportRich f d) =
      { id := JsonValue.str f.id, page := JsonValue.num f.page,
        x := JsonValue.num (round2 f.x), y := JsonValue.num (round2 f.y),
        width := JsonValue.num (round2 f.width), height := JsonValue.num (round2 f.height),
        variableName := JsonValue.str f.variableName } := by
  have step : importField g n (exportRich f d) =
      { id := jsOr (JsonValue.str f.id) (JsonValue.str g), page := JsonValue.num f.page,
        x := JsonValue.num (round2 f.x), y := JsonValue.num (round2 f.y),
        width := JsonValue.num (round2 f.width), height := JsonValue.num (round2 f.height),
        variableName := JsonValue.str f.variableName } := rfl
  rw [step, jsOr_str_of_ne f.id (JsonValue.str g) hid]

/-- Index-generalized export-then-import round trip over a list of fields
whose ids are non-empty and whose pages all have recorded dimensions. -/
theorem roundtrip_from (dims : ℕ → Option Dims) (gid gname : ℕ → String) :
    ∀ (i : ℕ) (fields : List Field), (∀ f ∈ fields, f.id ≠ "") →
      (∀ f ∈ fields, (dims f.page).isSome = true) →
      importFieldsFrom gid gname i (fields.map (exportField dims)) =
        fields.map (fun f =>
          { id := JsonValue.str f.id, page := JsonValue.num f.page,
            x := JsonValue.num (round2 f.x), y := JsonValue.num (round2 f.y),
            width := JsonValue.num (round2 f.width), height := JsonValue.num (round2 f.height),
            variableName := JsonValue.str f.variableName }) := by
  intro i fields
  induction fields generalizing i with
  | nil => intro _ _; rfl
  | cons f t ih =>
    intro hid hdims
    obtain ⟨d, hd⟩ := Option.isSome_iff_exists.mp (hdims f (List.mem_cons_self f t))
    simp only [List.map_cons, importFieldsFrom]
    rw [show exportField dims f = exportRich f d by simp [exportField, hd]]
    rw [importField_exportRich (gid i) (gname i) f d (hid f (List.mem_cons_self f t))]
    rw [ih (i + 1) (fun g hg => hid g (List.mem_cons_of_mem f hg))
      (fun g hg => hdims g (List.mem_cons_of_mem f hg))]

/-- C1 (amended): for every field list in which each field has a non-empty id
and every field's page has recorded page dimensions, exporting to the JSON
array and importing it back yields a field list of the same length and order
in which id, variableName and page are preserved exactly and each coordinate
equals the original rounded to 2 decimals. -/
theorem export_import_roundtrip (fields : List Field) (dims : ℕ → Option Dims)
    (gid gname : ℕ → String)
    (hid : ∀ f ∈ fields, f.id ≠ "")
    (hdims : ∀ f ∈ fields, (dims f.page).isSome = true) :
    importFields gid gname (fields.map (exportField dims)) =
      fields.map (fun f =>
        { id := JsonValue.str f.id, page := JsonValue.num f.page,
          x := JsonValue.num (round2 f.x), y := JsonValue.num (round2 f.y),
          width := JsonValue.num (round2 f.width), height := JsonValue.num (round2 f.height),
          variableName := JsonValue.str f.variableName }) :=
  roundtrip_from dims gid gname 0 fields hid hdims

/-- A concrete field whose `x` has more than two decimals, on a page without
recorded dimensions. -/
def cexField : Field :=
  { id := "a", page := 1, x := 1/3, y := 0, width := 10, height := 5, variableName := "n" }

/-- C1 counterexample: with no page dimensions recorded, `handleExport` falls
back to emitting the bare field, so the re-imported `x` is the original
full-precision `1/3` and not `1/3` rounded to two decimals — the round trip
as claimed fails for this collection. -/
theorem export_import_roundtrip_cex :
    (importFields (fun _ => "gen") (fun _ => "gname")
        (List.map (exportField (fun _ => none)) [cexField])).map JField.x
      = [JsonValue.num (1/3)] ∧
    JsonValue.num ((1 : ℚ)/3) ≠ JsonValue.num (round2 cexField.x) := by
  constructor
  · with_unfolding_all rfl
  · intro h
    injection h with h2
    exact absurd h2.symm (by with_unfolding_all decide)

/-- A concrete field used to witness the amended round-trip theorem. -/
def rtField : Field :=
  { id := "fld1", page := 3, x := 21/2, y := 5, width := 10, height := 5,
    variableName := "name1" }

/-- Witness for C1: the amended round trip evaluated at a one-field list with
known page dimensions. -/
theorem export_import_roundtrip_witness :
    importFields (fun _ => "g") (fun _ => "n")
        (List.map (exportField (fun _ => some { width := 100, height := 200 })) [rtField]) =
      [{ id := JsonValue.str "fld1", page := JsonValue.num 3,
         x := JsonValue.num (round2 (21/2)), y := JsonValue.num (round2 5),
         width := JsonValue.num (round2 10), height := JsonValue.num (round2 5),
         variableName := JsonValue.str "name1" }] := by
  have h := export_import_roundtrip [rtField] (fun _ => some { width := 100, height := 200 })
    (fun _ => "g") (fun _ => "n")
    (by intro f hf; rw [List.mem_singleton] at hf; subst hf; with_unfolding_all decide)
    (by intro f hf; rfl)
  simpa [rtField] using h

/-- A dragged field's pre-drag snapshot (`dragState.initialPositions`
entries, App.tsx lines 892-898). -/
structure Snapshot where
  id : String
  x : ℚ
  y : ℚ
  width : ℚ
  height : ℚ
deriving DecidableEq

/-- The drag session (`dragState`, App.tsx lines 675-680): pixel origin of
the press, the dragged fields' snapshots, and the pressed (anchor) field. -/
structure DragState where
  startX : ℚ
  startY : ℚ
  initialPositions : List Snapshot
  mainFieldId : String
deriving DecidableEq

/-- One entry of the batch emitted through `onUpdateFields`
(App.tsx lines 709, 738). -/
structure FieldUpdate where
  id : String
  x : ℚ
  y : ℚ
deriving DecidableEq

/-- The drag branch of `DrawingOverlay.handleMouseMove` (App.tsx lines
705-742): pixel delta converted to percentage space, Y-snap of the anchor
field against the first unselected same-page field within the 5-pixel
tolerance, the resulting Y delta applied to every snapshot, each position
clamped, and the batch of updates emitted.  Returns `none` when the anchor
id has no snapshot (the source's non-null assertion on `find` would throw
and no batch would be emitted).  The `snapLineY` guide state is view-only
and not modelled. -/
def dragMove (ds : DragState) (fields : List Field) (selectedFieldIds : List String)
    (currentPage : ℕ) (rectW rectH clientX clientY : ℚ) : Option (List FieldUpdate) :=
  let deltaX := (clientX - ds.startX) / rectW * 100
  let deltaY := (clientY - ds.startY) / rectH * 100
  match ds.initialPositions.find? (fun p => p.id == ds.mainFieldId) with
  | none => none
  | some mainFieldInitial =>
    let candY := mainFieldInitial.y + deltaY
    let snapMarginYPct := 5 / rectH * 100
    let mainNewY :=
      match fields.find? (fun f =>
          !(selectedFieldIds.contains f.id) && f.page == currentPage &&
            decide (|candY - f.y| ≤ snapMarginYPct)) with
      | some f => f.y
      | none => candY
    let finalDeltaY := mainNewY - mainFieldInitial.y
    some (ds.initialPositions.map (fun pos =>
      { id := pos.id,
        x := max 0 (min (100 - pos.width) (pos.x + deltaX)),
        y := max 0 (min (100 - pos.height) (pos.y + finalDeltaY)) }))

/-- The lasso branch of `DrawingOverlay.handleMouseMove` (App.tsx lines
745-772): the pointer position is clamped to the page, the lasso rectangle
is spanned from the gesture's start position, and the new selection is the
ids of the current page's fields whose whole rectangle lies inside it. -/
def lassoMoveSelection (fields : List Field) (currentPage : ℕ)
    (startX startY pointerX pointerY : ℚ) : List String :=
  let x := max 0 (min 100 pointerX)
  let y := max 0 (min 100 pointerY)
  let lx := min startX x
  let ly := min startY y
  let lw := |x - startX|
  let lh := |y - startY|
  ((fields.filter (fun f => f.page == currentPage)).filter (fun f =>
      decide (lx ≤ f.x ∧ ly ≤ f.y ∧ f.x + f.width ≤ lx + lw ∧ f.y + f.height ≤ ly + lh))).map
    (fun f => f.id)

/-- The `DrawingOverlay` gesture state: the persistent drawing-mode flag
`isDrawing`, the lasso-in-progress flag `isLasso`, the gesture anchor
positions, and the drag session (App.tsx lines 670-681). -/
structure OverlayState where
  isDrawing : Bool
  isLasso : Bool
  startPos : ℚ × ℚ
  currentPos : ℚ × ℚ
  dragState : Option DragState
deriving DecidableEq

/-- The overlay's initial state. -/
def initialOverlay : OverlayState :=
  { isDrawing := false, isLasso := false, startPos := (0, 0), currentPos := (0, 0),
    dragState := none }

/-- A click on the mode toggle button (App.tsx line 823):
`setIsDrawing(!isDrawing); setIsLasso(false)`. -/
def toggleDrawingClick (st : OverlayState) : OverlayState :=
  { st with isDrawing := !st.isDrawing, isLasso := false }

/-- `DrawingOverlay.handleMouseDown` on empty canvas (App.tsx lines 683-699):
records the anchor position, unconditionally starts a lasso, and clears the
selection unless a modifier key is held.  Returns the new overlay state and
the new selection. -/
def overlayMouseDown (st : OverlayState) (x y : ℚ) (additive : Bool)
    (sel : List String) : OverlayState × List String :=
  ({ st with startPos := (x, y), currentPos := (x, y), isLasso := true },
   if additive then sel else [])

/-- `DrawingOverlay.handleMouseUp` (App.tsx lines 776-810): an active drag is
discarded; otherwise an active lasso ends; otherwise, in drawing mode, the
spanned rectangle is committed as a new field when it exceeds the 0.5%
minimum in both axes.  Returns the new overlay state and the committed field,
if any.  `gid` models the fresh `generateId()` result and `numFields` the
current field count used for the default name. -/
def overlayMouseUp (st : OverlayState) (gid : String) (currentPage : ℕ)
    (numFields : ℕ) : OverlayState × Option Field :=
  match st.dragState with
  | some _ => ({ st with dragState := none }, none)
  | none =>
    if st.isLasso then ({ st with isLasso := false }, none)
    else if st.isDrawing then
      let x := min st.startPos.1 st.currentPos.1
      let y := min st.startPos.2 st.currentPos.2
      let w := |st.currentPos.1 - st.startPos.1|
      let h := |st.currentPos.2 - st.startPos.2|
      ({ st with isDrawing := false },
       if 1/2 < w ∧ 1/2 < h then
         some { id := gid, page := currentPage, x := x, y := y, width := w, height := h,
                variableName := "var_" ++ toString (numFields + 1) }
       else none)
    else (st, none)

/-- The clamp `Math.max(0, Math.min(100 - w, t))` keeps `x + w` within the
page provided `w ≤ 100`. -/
theorem clamp_add_le (w t : ℚ) (hw : w ≤ 100) : max 0 (min (100 - w) t) + w ≤ 100 := by
  have h1 : (0:ℚ) ≤ 100 - w := by linarith
  have h2 : max 0 (min (100 - w) t) ≤ 100 - w := max_le h1 (min_le_left _ _)
  linarith

/-- C2 (amended): every update emitted by a drag-move step keeps its field
inside the page — `0 ≤ x`, `0 ≤ y`, `x + width ≤ 100`, `y + height ≤ 100` —
provided every dragged snapshot's width and height are at most 100. -/
theorem drag_clamp_bounds (ds : DragState) (fields : List Field) (sel : List String)
    (page : ℕ) (rectW rectH cx cy : ℚ) (us : List FieldUpdate)
    (hus : dragMove ds fields sel page rectW rectH cx cy = some us)
    (hwh : ∀ p ∈ ds.initialPositions, p.width ≤ 100 ∧ p.height ≤ 100) :
    ∀ u ∈ us, 0 ≤ u.x ∧ 0 ≤ u.y ∧
      ∃ p ∈ ds.initialPositions, p.id = u.id ∧ u.x + p.width ≤ 100 ∧ u.y + p.height ≤ 100 := by
  simp only [dragMove] at hus
  cases hfind : ds.initialPositions.find? (fun p => p.id == ds.mainFieldId) with
  | none => rw [hfind] at hus; exact absurd hus (by simp)
  | some main =>
    rw [hfind] at hus
    have hus2 := (Option.some.inj hus).symm
    intro u hu
    rw [hus2] at hu
    obtain ⟨p, hp, hpu⟩ := List.mem_map.mp hu
    obtain ⟨hw, hh⟩ := hwh p hp
    subst hpu
    exact ⟨le_max_left 0 _, le_max_left 0 _, p, hp, rfl,
      clamp_add_le p.width _ hw, clamp_add_le p.height _ hh⟩

/-- A drag session holding a single snapshot that is wider than the page
(only reachable through JSON import, which does not validate sizes). -/
def wideDrag : DragState :=
  { startX := 0, startY := 0,
    initialPositions := [{ id := "a", x := 0, y := 0, width := 200, height := 5 }],
    mainFieldId := "a" }

/-- C2 counterexample: dragging a field of width 200 emits the update
`x = 0`, yet `x + width = 200 > 100` — the claimed bound `x + width ≤ 100`
fails for this drag-move step. -/
theorem drag_clamp_bounds_cex :
    dragMove wideDrag [] [] 1 100 100 0 0 = some [{ id := "a", x := 0, y := 0 }] ∧
      ¬((0 : ℚ) + 200 ≤ 100) := by
  constructor
  · with_unfolding_all decide
  · with_unfolding_all decide

/-- A drag session used to witness the amended clamp theorem. -/
def cornerDrag : DragState :=
  { startX := 0, startY := 0,
    initialPositions := [{ id := "c", x := 95, y := 95, width := 10, height := 10 }],
    mainFieldId := "c" }

/-- The update `cornerDrag` emits when the pointer moves 20 pixels right and
down on a 100-pixel-square viewport. -/
def cornerUpdate : FieldUpdate := { id := "c", x := 90, y := 90 }

/-- Witness for C2: the amended clamp theorem evaluated on a concrete
drag-move step that pushes a field past the bottom-right corner. -/
theorem drag_clamp_bounds_witness :
    0 ≤ cornerUpdate.x ∧ 0 ≤ cornerUpdate.y ∧
      ∃ p ∈ cornerDrag.initialPositions, p.id = cornerUpdate.id ∧
        cornerUpdate.x + p.width ≤ 100 ∧ cornerUpdate.y + p.height ≤ 100 :=
  drag_clamp_bounds cornerDrag [] [] 1 100 100 20 20 [cornerUpdate]
    (by with_unfolding_all decide) (by with_unfolding_all decide)
    cornerUpdate (List.mem_singleton_self cornerUpdate)

/-- C3: while a lasso is in progress, the selection recomputed by a pointer
move is exactly the set of ids of fields on the current page whose whole
rectangle lies inside the lasso rectangle spanned from the gesture start to
the (page-clamped) pointer position; partially overlapping fields and fields
on other pages are excluded. -/
theorem lasso_selection_exact (fields : List Field) (page : ℕ) (sx sy px py : ℚ)
    (i : String) :
    i ∈ lassoMoveSelection fields page sx sy px py ↔
      ∃ f ∈ fields, f.id = i ∧ f.page = page ∧
        min sx (max 0 (min 100 px)) ≤ f.x ∧
        min sy (max 0 (min 100 py)) ≤ f.y ∧
        f.x + f.width ≤ min sx (max 0 (min 100 px)) + |max 0 (min 100 px) - sx| ∧
        f.y + f.height ≤ min sy (max 0 (min 100 py)) + |max 0 (min 100 py) - sy| := by
  simp only [lassoMoveSelection, List.mem_map, List.mem_filter, decide_eq_true_eq, beq_iff_eq]
  constructor
  · rintro ⟨f, ⟨⟨hf, hpage⟩, hgeom⟩, rfl⟩
    exact ⟨f, hf, rfl, hpage, hgeom.1, hgeom.2.1, hgeom.2.2.1, hgeom.2.2.2⟩
  · rintro ⟨f, hf, rfl, hpage, h1, h2, h3, h4⟩
    exact ⟨f, ⟨⟨hf, hpage⟩, h1, h2, h3, h4⟩, rfl⟩

/-- A field fully inside the lasso spanned from `(0,0)` to `(50,50)`. -/
def lassoField : Field :=
  { id := "F1", page := 1, x := 10, y := 10, width := 5, height := 5,
    variableName := "v1" }

/-- Witness for C3: the lasso characterization evaluated on a concrete field
fully contained in a concrete lasso rectangle. -/
theorem lasso_selection_exact_witness :
    "F1" ∈ lassoMoveSelection [lassoField] 1 0 0 50 50 :=
  (lasso_selection_exact [lassoField] 1 0 0 50 50 "F1").mpr
    (by refine ⟨lassoField, List.mem_singleton_self lassoField, rfl, rfl, ?_, ?_, ?_, ?_⟩ <;>
      with_unfolding_all decide)

/-- Bridge between the Boolean snap scan condition of
`DrawingOverlay.handleMouseMove` and its propositional reading. -/
theorem snap_pred_iff (sel : List String) (page : ℕ) (candY m : ℚ) (f : Field) :
    (!(sel.contains f.id) && f.page == page && decide (|candY - f.y| ≤ m)) = true ↔
      (f.id ∉ sel ∧ f.page = page ∧ |candY - f.y| ≤ m) := by
  simp [List.contains, List.elem_iff, and_assoc]

/-- `find?` returns the first element satisfying the predicate. -/
theorem find?_append_first {α : Type} (p : α → Bool) (l1 l2 : List α) (g : α)
    (hg : p g = true) (h1 : ∀ x ∈ l1, p x = false) :
    (l1 ++ g :: l2).find? p = some g := by
  induction l1 with
  | nil => simp [List.find?_cons, hg]
  | cons a t ih =>
    have ha : p a = false := h1 a (List.mem_cons_self a t)
    rw [List.cons_append, List.find?_cons_of_neg _ (by simp [ha])]
    exact ih (fun x hx => h1 x (List.mem_cons_of_mem a hx))

/-- The drag-move branch, with the anchor snapshot resolved. -/
theorem dragMove_eq (ds : DragState) (fields : List Field) (sel : List String)
    (page : ℕ) (rectW rectH cx cy : ℚ) (main : Snapshot)
    (hmain : ds.initialPositions.find? (fun p => p.id == ds.mainFieldId) = some main) :
    dragMove ds fields sel page rectW rectH cx cy =
      some (ds.initialPositions.map (fun pos =>
        { id := pos.id,
          x := max 0 (min (100 - pos.width) (pos.x + (cx - ds.startX) / rectW * 100)),
          y := max 0 (min (100 - pos.height) (pos.y +
            ((match fields.find? (fun f => !(sel.contains f.id) && f.page == page &&
                decide (|main.y + (cy - ds.startY) / rectH * 100 - f.y| ≤ 5 / rectH * 100)) with
              | some f => f.y
              | none => main.y + (cy - ds.startY) / rectH * 100) - main.y))) })) := by
  simp only [dragMove, hmain]

/-- C4: during a drag move the anchor's candidate Y snaps exactly to the Y of
the first field in store order that is unselected, on the current page, and
within `(5 / viewport height) * 100` percentage units of the candidate; the
scan stops at that first match and the resulting Y delta is applied to every
dragged snapshot (then clamped); when no field qualifies, the raw pointer
delta is applied and no snap occurs. -/
theorem drag_snap_first_match (ds : DragState) (fields : List Field) (sel : List String)
    (page : ℕ) (rectW rectH cx cy : ℚ) (main : Snapshot)
    (hmain : ds.initialPositions.find? (fun p => p.id == ds.mainFieldId) = some main) :
    (∀ l1 g l2, fields = l1 ++ g :: l2 →
        (g.id ∉ sel ∧ g.page = page ∧
          |main.y + (cy - ds.startY) / rectH * 100 - g.y| ≤ 5 / rectH * 100) →
        (∀ f ∈ l1, ¬(f.id ∉ sel ∧ f.page = page ∧
          |main.y + (cy - ds.startY) / rectH * 100 - f.y| ≤ 5 / rectH * 100)) →
        dragMove ds fields sel page rectW rectH cx cy =
          some (ds.initialPositions.map (fun pos =>
            { id := pos.id,
              x := max 0 (min (100 - pos.width) (pos.x + (cx - ds.startX) / rectW * 100)),
              y := max 0 (min (100 - pos.height) (pos.y + (g.y - main.y))) }))) ∧
    ((∀ f ∈ fields, ¬(f.id ∉ sel ∧ f.page = page ∧
          |main.y + (cy - ds.startY) / rectH * 100 - f.y| ≤ 5 / rectH * 100)) →
        dragMove ds fields sel page rectW rectH cx cy =
          some (ds.initialPositions.map (fun pos =>
            { id := pos.id,
              x := max 0 (min (100 - pos.width) (pos.x + (cx - ds.startX) / rectW * 100)),
              y := max 0 (min (100 - pos.height) (pos.y + (cy - ds.startY) / rectH * 100)) }))) := by
  constructor
  · intro l1 g l2 heq hg h1
    subst heq
    have hgb := (snap_pred_iff sel page (main.y + (cy - ds.startY) / rectH * 100)
      (5 / rectH * 100) g).mpr hg
    have h1b : ∀ x ∈ l1, (!(sel.contains x.id) && x.page == page &&
        decide (|main.y + (cy - ds.startY) / rectH * 100 - x.y| ≤ 5 / rectH * 100)) = false :=
      fun x hx => Bool.eq_false_iff.mpr (fun hb => h1 x hx ((snap_pred_iff sel page
        (main.y + (cy - ds.startY) / rectH * 100) (5 / rectH * 100) x).mp hb))
    have hfeq := find?_append_first _ l1 l2 g hgb h1b
    simp only [dragMove_eq ds (l1 ++ g :: l2) sel page rectW rectH cx cy main hmain, hfeq]
  · intro hnone
    have hfeq : fields.find? (fun f => !(sel.contains f.id) && f.page == page &&
        decide (|main.y + (cy - ds.startY) / rectH * 100 - f.y| ≤ 5 / rectH * 100)) = none :=
      List.find?_eq_none.mpr (fun x hx hb => hnone x hx ((snap_pred_iff sel page
        (main.y + (cy - ds.startY) / rectH * 100) (5 / rectH * 100) x).mp hb))
    simp only [dragMove_eq ds fields sel page rectW rectH cx cy main hmain, hfeq,
      add_sub_cancel_left]

/-- A drag session whose anchor starts at `y = 47`. -/
def snapDrag : DragState :=
  { startX := 0, startY := 0,
    initialPositions := [{ id := "a", x := 0, y := 47, width := 10, height := 5 }],
    mainFieldId := "a" }

/-- The anchor snapshot of `snapDrag`. -/
def snapAnchor : Snapshot := { id := "a", x := 0, y := 47, width := 10, height := 5 }

/-- An unselected same-page field at `y = 50`, within snap tolerance of the
anchor's candidate `y = 47` on a 100-pixel-high viewport. -/
def snapTarget : Field :=
  { id := "b", page := 1, x := 0, y := 50, width := 10, height := 5, variableName := "vb" }

/-- Witness for C4: a concrete drag-move step in which the anchor's Y snaps
exactly to the unselected field's `y = 50`. -/
theorem drag_snap_first_match_witness :
    dragMove snapDrag [snapTarget] ["a"] 1 100 100 0 0 =
      some [{ id := "a", x := 0, y := 50 }] := by
  have h := (drag_snap_first_match snapDrag [snapTarget] ["a"] 1 100 100 0 0 snapAnchor
      (by with_unfolding_all decide)).1 [] snapTarget [] rfl
    (by refine ⟨?_, rfl, ?_⟩ <;> with_unfolding_all decide)
    (by simp)
  rw [h]
  with_unfolding_all decide

/-- The two pieces of `App` state the selection claims are about: the field
store `fields` and the selection `selectedFieldIds` (App.tsx lines 928-929). -/
structure AppState where
  fields : List Field
  selectedFieldIds : List String
deriving DecidableEq

/-- The sidebar's single-delete handler (App.tsx lines 1183-1187): removes
the field from the store and filters its id out of the selection in the same
handler. -/
def deleteField (s : AppState) (fid : String) : AppState :=
  { fields := s.fields.filter (fun f => !(f.id == fid)),
    selectedFieldIds := s.selectedFieldIds.filter (fun j => !(j == fid)) }

/-- The bulk delete-selected handler (App.tsx lines 1135-1137): removes every
selected field and empties the selection. -/
def deleteSelected (s : AppState) : AppState :=
  { fields := s.fields.filter (fun f => !(s.selectedFieldIds.contains f.id)),
    selectedFieldIds := [] }

/-- The rename handler (App.tsx lines 1198-1201): rewrites the variable name
of the field with the given id, leaving all others unchanged. -/
def renameField (fields : List Field) (fid name : String) : List Field :=
  fields.map (fun f => if f.id == fid then { f with variableName := name } else f)

/-- `onUpdateFields` (App.tsx lines 1309-1314): applies a batch of positional
updates; fields without a matching update are unchanged. -/
def moveFields (fields : List Field) (updates : List FieldUpdate) : List Field :=
  fields.map (fun f =>
    match updates.find? (fun u => u.id == f.id) with
    | some u => { f with x := u.x, y := u.y }
    | none => f)

/-- Renaming an id that no field carries leaves the store unchanged. -/
theorem renameField_no_match (l : List Field) (fid name : String)
    (h : ∀ f ∈ l, f.id ≠ fid) : renameField l fid name = l := by
  induction l with
  | nil => rfl
  | cons a t ih =>
    have ha : (a.id == fid) = false := by simpa using h a (List.mem_cons_self a t)
    simp only [renameField, List.map_cons, ha, Bool.false_eq_true, if_false, List.cons.injEq,
      true_and]
    exact ih (fun f hf => h f (List.mem_cons_of_mem a hf))

/-- A single-entry batch move whose id no field carries leaves the store
unchanged. -/
theorem moveFields_single_no_match (l : List Field) (u : FieldUpdate)
    (h : ∀ f ∈ l, f.id ≠ u.id) : moveFields l [u] = l := by
  induction l with
  | nil => rfl
  | cons a t ih =>
    have ha : (u.id == a.id) = false := by
      have := h a (List.mem_cons_self a t)
      simp [Ne.symm this]
    simp only [moveFields, List.map_cons, List.find?, ha, List.cons.injEq, true_and]
    exact ih (fun f hf => h f (List.mem_cons_of_mem a hf))

/-- C5: deleting a field (single or bulk) drops its id from the selection in
the same operation; assuming every selected id was backed by a stored field,
no selected id dangles afterwards; and a subsequent rename or batch move
addressed at a deleted id leaves the store unchanged. -/
theorem delete_prunes_selection (s : AppState) (fid : String)
    (hinv : ∀ j ∈ s.selectedFieldIds, ∃ f ∈ s.fields, f.id = j) :
    fid ∉ (deleteField s fid).selectedFieldIds ∧
    (∀ j ∈ (deleteField s fid).selectedFieldIds, ∃ f ∈ (deleteField s fid).fields, f.id = j) ∧
    (deleteSelected s).selectedFieldIds = [] ∧
    (∀ name, renameField (deleteField s fid).fields fid name = (deleteField s fid).fields) ∧
    (∀ u : FieldUpdate, u.id = fid →
      moveFields (deleteField s fid).fields [u] = (deleteField s fid).fields) ∧
    (∀ j name, j ∈ s.selectedFieldIds →
      renameField (deleteSelected s).fields j name = (deleteSelected s).fields) ∧
    (∀ u : FieldUpdate, u.id ∈ s.selectedFieldIds →
      moveFields (deleteSelected s).fields [u] = (deleteSelected s).fields) := by
  have hnotin : ∀ f ∈ (deleteField s fid).fields, f.id ≠ fid := by
    intro f hf
    have := (List.mem_filter.mp hf).2
    simpa using this
  have hnotin2 : ∀ f ∈ (deleteSelected s).fields, f.id ∉ s.selectedFieldIds := by
    intro f hf
    have := (List.mem_filter.mp hf).2
    simpa [List.elem_iff] using this
  refine ⟨?_, ?_, rfl, ?_, ?_, ?_, ?_⟩
  · intro hmem
    have := (List.mem_filter.mp hmem).2
    simp at this
  · intro j hj
    have hj2 := List.mem_filter.mp hj
    have hjne : j ≠ fid := by simpa using hj2.2
    obtain ⟨f, hf, hfid⟩ := hinv j hj2.1
    exact ⟨f, List.mem_filter.mpr ⟨hf, by simp [hfid, hjne]⟩, hfid⟩
  · intro name
    exact renameField_no_match _ fid name hnotin
  · intro u hu
    exact moveFields_single_no_match _ u (fun f hf => by rw [hu]; exact hnotin f hf)
  · intro j name hj
    exact renameField_no_match _ j name (fun f hf e => hnotin2 f hf (e ▸ hj))
  · intro u hu
    exact moveFields_single_no_match _ u (fun f hf e => hnotin2 f hf (e ▸ hu))

/-- A two-field state with both fields selected. -/
def stateAB : AppState :=
  { fields :=
      [ { id := "A", page := 1, x := 0, y := 10, width := 5, height := 5, variableName := "a" }
      , { id := "B", page := 1, x := 10, y := 30, width := 5, height := 5, variableName := "b" } ],
    selectedFieldIds := ["A", "B"] }

/-- Witness for C5: deleting field `A` from `stateAB` drops `"A"` from the
selection, bulk delete empties the selection, and a rename addressed at the
deleted id is a no-op. -/
theorem delete_prunes_selection_witness :
    "A" ∉ (deleteField stateAB "A").selectedFieldIds ∧
      (deleteSelected stateAB).selectedFieldIds = [] ∧
      renameField (deleteField stateAB "A").fields "A" "zz" = (deleteField stateAB "A").fields := by
  have h := delete_prunes_selection stateAB "A" (by with_unfolding_all decide)
  exact ⟨h.1, h.2.2.1, h.2.2.2.1 "zz"⟩

/-- `syncY` (App.tsx lines 1054-1067): a no-op below two selected ids;
otherwise every selected field's `y` is set to the `y` of the first selected
field in store order (`selectedFields[0]`).  The empty-match branch models
the source's crash on `selectedFields[0].y` when no selected id is stored:
the exception leaves the state unchanged. -/
def syncY (s : AppState) : AppState :=
  if s.selectedFieldIds.length < 2 then s
  else
    match s.fields.filter (fun f => s.selectedFieldIds.contains f.id) with
    | [] => s
    | first :: _ =>
      { s with fields := s.fields.map (fun f =>
          if s.selectedFieldIds.contains f.id then { f with y := first.y } else f) }

/-- C6: `syncY` is a no-op when fewer than two ids are selected; otherwise,
with `first` the first selected field in field-store iteration order (the
head of the store filtered by the selection — independent of the order of
`selectedFieldIds`), every selected field's `y` becomes `first.y` and
unselected fields are untouched. -/
theorem syncY_first_selected (s : AppState) :
    (s.selectedFieldIds.length < 2 → syncY s = s) ∧
    (∀ first rest, 2 ≤ s.selectedFieldIds.length →
      s.fields.filter (fun f => s.selectedFieldIds.contains f.id) = first :: rest →
      (syncY s).fields = s.fields.map (fun f =>
        if s.selectedFieldIds.contains f.id then { f with y := first.y } else f) ∧
      ∀ f ∈ (syncY s).fields, f.id ∈ s.selectedFieldIds → f.y = first.y) := by
  constructor
  · intro h; simp only [syncY, if_pos h]
  · intro first rest h2 hfilter
    have hnot : ¬ s.selectedFieldIds.length < 2 := by omega
    have hmap : (syncY s).fields = s.fields.map (fun f =>
        if s.selectedFieldIds.contains f.id then { f with y := first.y } else f) := by
      simp only [syncY, if_neg hnot, hfilter]
    refine ⟨hmap, ?_⟩
    intro f hf hfsel
    rw [hmap] at hf
    obtain ⟨f0, hf0, heq⟩ := List.mem_map.mp hf
    by_cases hc : s.selectedFieldIds.contains f0.id = true
    · rw [if_pos hc] at heq
      rw [← heq]
    · rw [if_neg hc] at heq
      subst heq
      exact absurd (List.elem_iff.mpr hfsel) hc

/-- Field A at `y = 10`. -/
def fieldA : Field :=
  { id := "A", page := 1, x := 0, y := 10, width := 5, height := 5, variableName := "a" }

/-- Field B at `y = 30`. -/
def fieldB : Field :=
  { id := "B", page := 1, x := 10, y := 30, width := 5, height := 5, variableName := "b" }

/-- Field C at `y = 50`. -/
def fieldC : Field :=
  { id := "C", page := 1, x := 20, y := 50, width := 5, height := 5, variableName := "c" }

/-- Store order `[A, B, C]`, clicked/selected in order `C, A, B`. -/
def stateABC : AppState :=
  { fields := [fieldA, fieldB, fieldC], selectedFieldIds := ["C", "A", "B"] }

/-- Witness for C6: with store order `[A(y=10), B(y=30), C(y=50)]` all
selected in click order `C, A, B`, `syncY` sets every `y` to 10. -/
theorem syncY_first_selected_witness :
    (syncY stateABC).fields.map (fun f => f.y) = [10, 10, 10] := by
  have h := ((syncY_first_selected stateABC).2 fieldA [fieldB, fieldC]
    (by with_unfolding_all decide) (by with_unfolding_all decide)).1
  rw [h]
  with_unfolding_all decide

/-- C7 (refuting the claim — a bug in the code): with the drawing toggle on,
a pointer-down on empty canvas leaves `isDrawing = true` and also sets
`isLasso = true`, so both states are active at once; and the following
mouse-up takes the lasso branch and commits no field, although the toggle
(titled "Modo Dibujo (Crear nuevos campos)") promises that drawing creates
fields.  `handleMouseDown` never consults `isDrawing` before starting a
lasso. -/
theorem drawing_lasso_both_active :
    ((overlayMouseDown (toggleDrawingClick initialOverlay) 10 10 false []).1.isDrawing = true ∧
     (overlayMouseDown (toggleDrawingClick initialOverlay) 10 10 false []).1.isLasso = true) ∧
    (overlayMouseUp (overlayMouseDown (toggleDrawingClick initialOverlay) 10 10 false []).1
        "g1" 1 0).2 = none := by
  with_unfolding_all decide

/-- C8: when the file's text fails to parse as JSON or parses to a non-array
value, the import reports the malformed-input error and leaves the field
collection exactly unchanged. -/
theorem import_rejects_nonarray (gid gname : ℕ → String) (fields : List JField) :
    handleJsonUpload none gid gname fields = (fields, true) ∧
    ∀ v, (∀ items, v ≠ JsonValue.arr items) →
      handleJsonUpload (some v) gid gname fields = (fields, true) := by
  refine ⟨rfl, ?_⟩
  intro v hv
  cases v with
  | arr items => exact absurd rfl (hv items)
  | undef => rfl
  | null => rfl
  | bool b => rfl
  | num q => rfl
  | str s2 => rfl
  | obj fs => rfl

/-- Witness for C8: importing the non-array JSON value `3` changes nothing
and surfaces the error. -/
theorem import_rejects_nonarray_witness :
    handleJsonUpload (some (JsonValue.num 3)) (fun _ => "") (fun _ => "") [] = ([], true) :=
  (import_rejects_nonarray (fun _ => "") (fun _ => "") []).2 (JsonValue.num 3)
    (fun _ h => JsonValue.noConfusion h)

/-- A rich-format element carrying only the `percentageCoordinates` block. -/
def richItemBare : JsonValue :=
  JsonValue.obj
    [ ("percentageCoordinates", JsonValue.obj
        [ ("x", JsonValue.num 1), ("y", JsonValue.num 2)
        , ("width", JsonValue.num 3), ("height", JsonValue.num 4) ]) ]

/-- A rich-format element whose `page` and `variableName` are the falsy
values `0` and `""` — the raw path would replace both with defaults. -/
def richItemFalsy : JsonValue :=
  JsonValue.obj
    [ ("page", JsonValue.num 0), ("variableName", JsonValue.str "")
    , ("percentageCoordinates", JsonValue.obj
        [ ("x", JsonValue.num 1), ("y", JsonValue.num 2)
        , ("width", JsonValue.num 3), ("height", JsonValue.num 4) ]) ]

/-- C10: for every element whose `percentageCoordinates` property is truthy,
the resulting field takes `page` and `variableName` verbatim from the element
with no defaults applied (an absent property stays `undefined`) and its
coordinates verbatim from the block, while a non-truthy `id` is still
regenerated; concretely, the block-only element imports with `undefined`
page and name, and even the falsy values `page: 0` and `variableName: ""`
survive unreplaced. -/
theorem import_rich_verbatim (g n : String) (item : JsonValue) (gid gname : ℕ → String)
    (hpc : truthy (objGet item "percentageCoordinates") = true) :
    importField g n item =
      { id := if truthy (objGet item "id") then objGet item "id" else JsonValue.str g,
        page := objGet item "page",
        variableName := objGet item "variableName",
        x := objGet (objGet item "percentageCoordinates") "x",
        y := objGet (objGet item "percentageCoordinates") "y",
        width := objGet (objGet item "percentageCoordinates") "width",
        height := objGet (objGet item "percentageCoordinates") "height" } ∧
    importFields gid gname [richItemBare] =
      [{ id := JsonValue.str (gid 0), page := JsonValue.undef, x := JsonValue.num 1,
         y := JsonValue.num 2, width := JsonValue.num 3, height := JsonValue.num 4,
         variableName := JsonValue.undef }] ∧
    importFields gid gname [richItemFalsy] =
      [{ id := JsonValue.str (gid 0), page := JsonValue.num 0, x := JsonValue.num 1,
         y := JsonValue.num 2, width := JsonValue.num 3, height := JsonValue.num 4,
         variableName := JsonValue.str "" }] := by
  refine ⟨?_, ?_, ?_⟩
  · simp only [importField, hpc, if_true, jsOr]
  · with_unfolding_all rfl
  · with_unfolding_all rfl

/-- Witness for C10: the theorem applied to the block-only element with a
concrete id supply. -/
theorem import_rich_verbatim_witness :
    importFields (fun _ => "w") (fun _ => "vn") [richItemBare] =
      [{ id := JsonValue.str "w", page := JsonValue.undef, x := JsonValue.num 1,
         y := JsonValue.num 2, width := JsonValue.num 3, height := JsonValue.num 4,
         variableName := JsonValue.undef }] :=
  (import_rich_verbatim "w" "vn" richItemBare (fun _ => "w") (fun _ => "vn")
    (by with_unfolding_all rfl)).2.1

end PDFFieldMapper
